import Mathlib

/-!
Verification of the event-occurrence scheduling and idempotent job-processing
core of the reminder service.

The TypeScript sources are embedded shallowly:

* A JS `Date` value (a UTC instant) is modelled as its epoch time in integer
  seconds (`Int`).  The runtime's system timezone, which `date-fns`
  `getYear`/`getMonth`/`getDate` consult, is modelled as UTC, matching the
  server deployment the service assumes.
* The Gregorian calendar arithmetic of the JS `Date` constructor
  (`new Date(year, month, day, ...)` with field normalisation) is modelled by
  Howard Hinnant's `days_from_civil` algorithm, which is exactly the
  arithmetic ECMAScript's `MakeDay` specifies.
* The IANA timezone database consulted by `date-fns-tz` / `Intl` is external
  to the repository; it is modelled as an abstract offset table
  (`Timezone`, `TzDatabase`) plus concrete instances (`americaNewYork`,
  `pacificKiritimati`, `etcUtc`) transcribed from the real tzdata rules.
* Database and queue effects are modelled by explicit state passing; the
  Prisma unique constraint on `(event_id, scheduled_for)` is modelled in
  `prismaCreateScheduledNotification`; a thrown JS exception is an `Except`.
-/

set_option maxRecDepth 8000

/-! ## Calendar arithmetic (epoch days/seconds vs civil dates) -/

/-- Civil (proleptic Gregorian) calendar date; `month` is 1-based. -/
structure Civil where
  year : Int
  month : Int
  day : Int
deriving DecidableEq, Repr

/-- Days since 1970-01-01 of a civil date (Hinnant's `days_from_civil`,
with floor division).  For `day` outside the month's range this performs
exactly the field normalisation of ECMAScript's `MakeDay` (the day count
enters linearly), so it also models JS `new Date(y, m, d)` for overflowing
days. -/
def daysFromCivil (y m d : Int) : Int :=
  let y' := if m ≤ 2 then y - 1 else y
  let era := y' / 400
  let yoe := y' - era * 400
  let mp := if m > 2 then m - 3 else m + 9
  let doy := (153 * mp + 2) / 5 + d - 1
  let doe := yoe * 365 + yoe / 4 - yoe / 100 + doy
  era * 146097 + doe - 719468

/-- Civil date from days since 1970-01-01 (Hinnant's `civil_from_days`). -/
def civilFromDays (z : Int) : Civil :=
  let z' := z + 719468
  let era := z' / 146097
  let doe := z' - era * 146097
  let yoe := (doe - doe / 1460 + doe / 36524 - doe / 146096) / 365
  let y := yoe + era * 400
  let doy := doe - (365 * yoe + yoe / 4 - yoe / 100)
  let mp := (5 * doy + 2) / 153
  let d := doy - (153 * mp + 2) / 5 + 1
  let m := if mp < 10 then mp + 3 else mp - 9
  ⟨if m ≤ 2 then y + 1 else y, m, d⟩

/-- Epoch seconds of a civil date plus a wall-clock time. -/
def epochOfCivil (y m d hh mi ss : Int) : Int :=
  daysFromCivil y m d * 86400 + hh * 3600 + mi * 60 + ss

/-- Day number containing an epoch instant (floor). -/
def dayOf (t : Int) : Int := t / 86400

/-- Seconds past local midnight of an epoch instant. -/
def secsOfDay (t : Int) : Int := t % 86400

/-- date-fns `getYear` (system timezone modelled as UTC). -/
def getYear (t : Int) : Int := (civilFromDays (dayOf t)).year

/-- date-fns `getMonth`: 0-indexed month, like JS `Date.getMonth`. -/
def getMonth (t : Int) : Int := (civilFromDays (dayOf t)).month - 1

/-- date-fns `getDate`: 1-based day of month. -/
def getDate (t : Int) : Int := (civilFromDays (dayOf t)).day

/-! ## Timezone model

The IANA timezone database is external to the repository.  A timezone is
modelled by its offset tables: `offsetAtLocal` is the offset (in seconds,
east positive) the database resolves for a local wall-clock datetime, as
used by `date-fns-tz`'s `fromZonedTime`; `offsetAtUtc` is the offset in
force at a UTC instant, as used when projecting a UTC instant back to local
time (`formatInTimeZone`). -/

structure Timezone where
  offsetAtLocal : Int → Int
  offsetAtUtc : Int → Int

/-- date-fns-tz `fromZonedTime`: interpret a naive local datetime (epoch
arithmetic on its fields) in a timezone, producing the UTC instant. -/
def fromZonedTime (ldt : Int) (tz : Timezone) : Int :=
  ldt - tz.offsetAtLocal ldt

/-- Projection of a UTC instant to local wall-clock (epoch arithmetic on
local fields), as `formatInTimeZone` renders it. -/
def localProjection (tz : Timezone) (u : Int) : Int :=
  u + tz.offsetAtUtc u

/-- The local wall-clock datetime `ldt` exists unambiguously in `tz`:
resolving it to UTC and reading the offset back at that instant agrees.
This holds for every local time outside a DST spring-forward gap. -/
def coherentAt (tz : Timezone) (ldt : Int) : Prop :=
  tz.offsetAtUtc (ldt - tz.offsetAtLocal ldt) = tz.offsetAtLocal ldt

/-- The `Intl`/tzdata lookup table: timezone identifier resolution. -/
def TzDatabase := String → Option Timezone

/-- Day of week of an epoch day number; 0 = Sunday (1970-01-01 was a
Thursday = 4). -/
def dayOfWeek (z : Int) : Int := (z + 4) % 7

/-- Day of month of the second Sunday of March of a year (US DST start). -/
def secondSundayMarch (y : Int) : Int :=
  8 + (7 - dayOfWeek (daysFromCivil y 3 8)) % 7

/-- Day of month of the first Sunday of November of a year (US DST end). -/
def firstSundayNov (y : Int) : Int :=
  1 + (7 - dayOfWeek (daysFromCivil y 11 1)) % 7

/-- America/New_York, transcribed from tzdata (post-2007 US rules):
UTC-5 (EST), UTC-4 (EDT) between 02:00 local on the second Sunday of March
(07:00 UTC) and 02:00 local on the first Sunday of November (06:00 UTC). -/
def americaNewYork : Timezone where
  offsetAtLocal := fun ldt =>
    let y := (civilFromDays (dayOf ldt)).year
    if epochOfCivil y 3 (secondSundayMarch y) 2 0 0 ≤ ldt ∧
        ldt < epochOfCivil y 11 (firstSundayNov y) 2 0 0
    then -14400 else -18000
  offsetAtUtc := fun u =>
    let y := (civilFromDays (dayOf u)).year
    if epochOfCivil y 3 (secondSundayMarch y) 7 0 0 ≤ u ∧
        u < epochOfCivil y 11 (firstSundayNov y) 6 0 0
    then -14400 else -18000

/-- Pacific/Kiritimati, transcribed from tzdata: fixed UTC+14 (no DST
since 1994). -/
def pacificKiritimati : Timezone where
  offsetAtLocal := fun _ => 50400
  offsetAtUtc := fun _ => 50400

/-- Etc/UTC: fixed zero offset. -/
def etcUtc : Timezone where
  offsetAtLocal := fun _ => 0
  offsetAtUtc := fun _ => 0

def nyName : String := "America/New_York"
def kiriName : String := "Pacific/Kiritimati"
def utcName : String := "Etc/UTC"

/-- The subset of the IANA database used by concrete scenarios. -/
def sampleTzDb : TzDatabase := fun s =>
  if s = nyName then some americaNewYork
  else if s = kiriName then some pacificKiritimati
  else if s = utcName then some etcUtc
  else none

/-! ## `TimezoneUtil` (src/common/utils/timezone.util.ts) -/

/-- Notification time parsed from its `HH:MM:SS` string
(`localTime.split(':').map(Number)`). -/
structure TimeOfDay where
  hours : Int
  minutes : Int
  seconds : Int
deriving DecidableEq, Repr

/-- A well-formed `HH:MM:SS` wall-clock time. -/
def validTime (t : TimeOfDay) : Prop :=
  0 ≤ t.hours ∧ t.hours < 24 ∧ 0 ≤ t.minutes ∧ t.minutes < 60 ∧
    0 ≤ t.seconds ∧ t.seconds < 60

instance (t : TimeOfDay) : Decidable (validTime t) := by
  unfold validTime; infer_instance

/-- Seconds past midnight denoted by a wall-clock time. -/
def timeSecs (t : TimeOfDay) : Int :=
  t.hours * 3600 + t.minutes * 60 + t.seconds

namespace TimezoneUtil

/-- The naive local datetime `new Date(getYear(date), getMonth(date),
getDate(date), hours, minutes, seconds)` built inside `toUtc`. -/
def localDateTimeOf (localTime : TimeOfDay) (date : Int) : Int :=
  epochOfCivil (getYear date) (getMonth date + 1) (getDate date)
    localTime.hours localTime.minutes localTime.seconds

/-- `TimezoneUtil.toUtc`: exact UTC instant of a local wall-clock time in a
timezone on a given date, via `fromZonedTime`. -/
def toUtc (localTime : TimeOfDay) (tz : Timezone) (date : Int) : Int :=
  fromZonedTime (localDateTimeOf localTime date) tz

/-- `TimezoneUtil.isValidTimezone`: `Intl` resolution succeeds. -/
def isValidTimezone (db : TzDatabase) (timezone : String) : Bool :=
  (db timezone).isSome

end TimezoneUtil

/-! ## Occurrence calculator (next-occurrence.util.ts) -/

/-- Leap year policy for Feb 29 events in non-leap years. -/
inductive LeapYearPolicy where
  | USE_FEB_28
  | SKIP_YEAR
deriving DecidableEq, Repr

/-- Subset of the Prisma RecurringEvent model used by the calculator:
`eventDate` stores MM-DD with the fixed-year-2000 convention. -/
structure RecurringEventInput where
  eventDate : Int
  notificationTime : TimeOfDay
deriving DecidableEq, Repr

/-- Helper to check if a year is a leap year. -/
def isLeapYear (year : Int) : Bool :=
  (year % 4 == 0 && year % 100 != 0) || year % 400 == 0

/-- Build occurrence date (a JS `Date` at system-local midnight) for a
given year, handling the leap year policy; `month` is 0-indexed. -/
def buildOccurrenceDate (month day year : Int) (policy : LeapYearPolicy) : Int :=
  if month = 1 ∧ day = 29 then
    if ¬((year % 4 = 0 ∧ year % 100 ≠ 0) ∨ year % 400 = 0) then
      match policy with
      | .USE_FEB_28 => daysFromCivil year 2 28 * 86400
      | .SKIP_YEAR => daysFromCivil year 2 28 * 86400
    else daysFromCivil year 2 29 * 86400
  else daysFromCivil year (month + 1) day * 86400

/-- Error raised by `nextOccurrence`. -/
inductive NextOccurrenceError where
  | invalidTimezone
deriving DecidableEq, Repr

/-- Compute the next occurrence of a recurring annual event: try the
reference year's candidate; if it is not strictly after `fromDate`, take
the following year's candidate.  Throws (returns `.error`) iff the
timezone identifier does not resolve. -/
def nextOccurrence (event : RecurringEventInput) (fromDate : Int)
    (timezone : String) (db : TzDatabase) (policy : LeapYearPolicy) :
    Except NextOccurrenceError Int :=
  if ¬ TimezoneUtil.isValidTimezone db timezone then
    .error .invalidTimezone
  else
    match db timezone with
    | none => .error .invalidTimezone
    | some tz =>
      let eventMonth := getMonth event.eventDate
      let eventDay := getDate event.eventDate
      let currentYear := getYear fromDate
      let occurrenceDate := buildOccurrenceDate eventMonth eventDay currentYear policy
      let occurrenceUtc := TimezoneUtil.toUtc event.notificationTime tz occurrenceDate
      if ¬ (fromDate < occurrenceUtc) then
        let occurrenceDate2 := buildOccurrenceDate eventMonth eventDay (currentYear + 1) policy
        .ok (TimezoneUtil.toUtc event.notificationTime tz occurrenceDate2)
      else
        .ok occurrenceUtc

/-! ## Calendar correctness lemmas

The correction term and days-before-year-of-era polynomial appearing inside
Hinnant's algorithm, restated as standalone functions for the proofs. -/

/-- Days before year-of-era `a` within an era (`365a + a/4 - a/100`). -/
def dbyeI (a : Int) : Int := 365 * a + a / 4 - a / 100

/-- The leap correction term of `civil_from_days`. -/
def corrI (b : Int) : Int := b - b / 1460 + b / 36524 - b / 146096

theorem corrI_mono {b b' : Int} (h : b ≤ b') : corrI b ≤ corrI b' := by
  unfold corrI
  have h1 : b - b / 1460 ≤ b' - b' / 1460 := by omega
  have h2 : b / 36524 - b / 146096 ≤ b' / 36524 - b' / 146096 := by omega
  omega

theorem corrI_point_lo : ∀ a : Nat, a < 400 → 365 * (a : Int) ≤ corrI (dbyeI (a : Int)) := by
  decide

theorem corrI_point_hi :
    ∀ a : Nat, a < 399 → corrI (dbyeI ((a : Int) + 1) - 1) ≤ 365 * (a : Int) + 364 := by
  decide

theorem corrI_point_lo_int (a : Int) (h0 : 0 ≤ a) (h1 : a ≤ 399) :
    365 * a ≤ corrI (dbyeI a) := by
  have h := corrI_point_lo a.toNat (by omega)
  rwa [Int.toNat_of_nonneg h0] at h

theorem corrI_point_hi_int (a : Int) (h0 : 0 ≤ a) (h1 : a ≤ 398) :
    corrI (dbyeI (a + 1) - 1) ≤ 365 * a + 364 := by
  have h := corrI_point_hi a.toNat (by omega)
  rwa [Int.toNat_of_nonneg h0] at h

/-- Core bracketing facts for the year-of-era extracted by
`civil_from_days`: it is in range and its day-of-year is in `[0, 365]`. -/
theorem yoe_facts (doe : Int) (h0 : 0 ≤ doe) (h1 : doe ≤ 146096) :
    0 ≤ corrI doe / 365 ∧ corrI doe / 365 ≤ 399 ∧
    dbyeI (corrI doe / 365) ≤ doe ∧ doe ≤ dbyeI (corrI doe / 365) + 365 := by
  have hbounds : 0 ≤ corrI doe / 365 ∧ corrI doe / 365 ≤ 399 := by
    unfold corrI; omega
  obtain ⟨ha0, ha1⟩ := hbounds
  have hc0 : (0 : Int) ≤ corrI doe := by
    have := corrI_mono h0
    simpa [corrI] using this
  have hfloor : 365 * (corrI doe / 365) ≤ corrI doe ∧
      corrI doe < 365 * (corrI doe / 365) + 365 := by omega
  set a := corrI doe / 365 with ha
  refine ⟨ha0, ha1, ?_, ?_⟩
  · by_contra hlt
    push_neg at hlt
    have hane : a ≠ 0 := by
      intro h; rw [h] at hlt; simp [dbyeI] at hlt; omega
    have ha1' : 1 ≤ a := by omega
    have hmono := corrI_mono (show doe ≤ dbyeI a - 1 by omega)
    have hhi : corrI (dbyeI ((a - 1) + 1) - 1) ≤ 365 * (a - 1) + 364 :=
      corrI_point_hi_int (a - 1) (by omega) (by omega)
    have harg : a - 1 + 1 = a := by omega
    rw [harg] at hhi
    omega
  · by_contra hgt
    push_neg at hgt
    have hlen : dbyeI (a + 1) ≤ dbyeI a + 366 := by unfold dbyeI; omega
    by_cases h399 : a = 399
    · rw [h399] at hgt
      have hv : dbyeI 399 = 145731 := by decide
      omega
    · have hlo := corrI_point_lo_int (a + 1) (by omega) (by omega)
      have hmono := corrI_mono (show dbyeI (a + 1) ≤ doe by omega)
      omega


/-- Closed form of `days_from_civil` at January 1. -/
theorem daysFromCivil_jan1 (Y : Int) :
    daysFromCivil Y 1 1 =
      (Y - 1) / 400 * 146097 + ((Y - 1) - (Y - 1) / 400 * 400) * 365 +
        ((Y - 1) - (Y - 1) / 400 * 400) / 4 - ((Y - 1) - (Y - 1) / 400 * 400) / 100 +
        306 - 719468 := by
  unfold daysFromCivil
  norm_num
  omega

/-- Every epoch day precedes January 1 of the year after its civil year. -/
theorem lt_next_jan1 (z : Int) :
    z < daysFromCivil ((civilFromDays z).year + 1) 1 1 := by
  unfold civilFromDays
  dsimp only
  rw [daysFromCivil_jan1]
  set era := (z + 719468) / 146097 with hera
  set doe := z + 719468 - era * 146097 with hdoe
  set yoe := (doe - doe / 1460 + doe / 36524 - doe / 146096) / 365 with hyoe
  set doy := doe - (365 * yoe + yoe / 4 - yoe / 100) with hdoy
  set mp := (5 * doy + 2) / 153 with hmp
  have hdoeb : 0 ≤ doe ∧ doe ≤ 146096 := by omega
  have hyf := yoe_facts doe hdoeb.1 hdoeb.2
  have hyoe2 : yoe = corrI doe / 365 := by rw [hyoe]; rfl
  rw [← hyoe2] at hyf
  have hdb : dbyeI yoe = 365 * yoe + yoe / 4 - yoe / 100 := rfl
  rw [hdb] at hyf
  have hyoeb : 0 ≤ yoe ∧ yoe ≤ 399 := ⟨hyf.1, hyf.2.1⟩
  have hbrkt : 365 * yoe + yoe / 4 - yoe / 100 ≤ doe ∧
      doe ≤ 365 * yoe + yoe / 4 - yoe / 100 + 365 := ⟨hyf.2.2.1, hyf.2.2.2⟩
  have hdoyb : 0 ≤ doy ∧ doy ≤ 365 := by omega
  have hmpf : 0 ≤ mp ∧ mp ≤ 11 ∧ (mp < 10 → doy ≤ 305) := by omega
  clear hyf hyoe2 hdb hmp hyoe hera
  clear_value era doe yoe doy mp
  split_ifs with h1 h2 h2
  · -- mp < 10 and (mp + 3) ≤ 2: impossible
    omega
  · -- mp < 10, month = mp + 3 > 2: year = yoe + era * 400
    have e0 : yoe + era * 400 + 1 - 1 = yoe + era * 400 := by ring
    rw [e0]
    have e1 : (yoe + era * 400) / 400 = era := by omega
    rw [e1]
    have e2 : yoe + era * 400 - era * 400 = yoe := by ring
    rw [e2]
    omega
  · -- mp ≥ 10, month = mp - 9 ≤ 2: year = yoe + era * 400 + 1
    have e0 : yoe + era * 400 + 1 + 1 - 1 = yoe + 1 + era * 400 := by ring
    rw [e0]
    by_cases hy : yoe = 399
    · rw [hy]
      have e1 : (399 + 1 + era * 400) / 400 = era + 1 := by omega
      rw [e1]
      have e2 : 399 + 1 + era * 400 - (era + 1) * 400 = 0 := by ring
      rw [e2]
      norm_num
      omega
    · have e1 : (yoe + 1 + era * 400) / 400 = era := by omega
      rw [e1]
      have e2 : yoe + 1 + era * 400 - era * 400 = yoe + 1 := by ring
      rw [e2]
      omega
  · -- mp ≥ 10 and (mp - 9) > 2: impossible
    omega

/-- Every epoch instant strictly precedes the start (UTC-modelled system
time) of the calendar year following its `getYear`. -/
theorem lt_next_year_start (t : Int) :
    t < epochOfCivil (getYear t + 1) 1 1 0 0 0 := by
  unfold getYear epochOfCivil dayOf
  have h := lt_next_jan1 (t / 86400)
  omega

/-- Seconds-of-day of a civil datetime built from a valid wall-clock time
recover that time. -/
theorem secsOfDay_epochOfCivil (y m d : Int) (t : TimeOfDay) (hv : validTime t) :
    secsOfDay (epochOfCivil y m d t.hours t.minutes t.seconds) = timeSecs t := by
  unfold validTime at hv
  unfold secsOfDay epochOfCivil timeSecs
  omega

/-! ## Claim C1, C5, C6, C7: the occurrence calculator -/

/-- C1 (amended): for every event, valid notification time, resolvable
timezone and reference instant, provided (i) both candidate local
datetimes exist unambiguously in the timezone (`coherentAt`, i.e. they do
not fall in a DST spring-forward gap) and (ii) the timezone's resolved
offset for the next-year candidate does not exceed that candidate's
distance past the start of the next calendar year, `nextOccurrence`
returns a UTC instant strictly after `fromDate` whose local-time
projection in the timezone is exactly the configured notification time. -/
theorem claim_C1_amended (event : RecurringEventInput) (fromDate : Int)
    (timezone : String) (db : TzDatabase) (tz : Timezone) (policy : LeapYearPolicy)
    (hdb : db timezone = some tz)
    (hT : validTime event.notificationTime)
    (hcoh1 : coherentAt tz (TimezoneUtil.localDateTimeOf event.notificationTime
      (buildOccurrenceDate (getMonth event.eventDate) (getDate event.eventDate)
        (getYear fromDate) policy)))
    (hcoh2 : coherentAt tz (TimezoneUtil.localDateTimeOf event.notificationTime
      (buildOccurrenceDate (getMonth event.eventDate) (getDate event.eventDate)
        (getYear fromDate + 1) policy)))
    (heast : tz.offsetAtLocal (TimezoneUtil.localDateTimeOf event.notificationTime
        (buildOccurrenceDate (getMonth event.eventDate) (getDate event.eventDate)
          (getYear fromDate + 1) policy)) ≤
      TimezoneUtil.localDateTimeOf event.notificationTime
        (buildOccurrenceDate (getMonth event.eventDate) (getDate event.eventDate)
          (getYear fromDate + 1) policy) -
        epochOfCivil (getYear fromDate + 1) 1 1 0 0 0) :
    ∃ u, nextOccurrence event fromDate timezone db policy = Except.ok u ∧
      fromDate < u ∧
      secsOfDay (localProjection tz u) = timeSecs event.notificationTime := by
  have hvalid : TimezoneUtil.isValidTimezone db timezone = true := by
    unfold TimezoneUtil.isValidTimezone
    rw [hdb]
    rfl
  unfold nextOccurrence
  rw [hdb]
  simp only [hvalid, not_true, if_false, Bool.true_eq_false, ite_false]
  set d1 := buildOccurrenceDate (getMonth event.eventDate) (getDate event.eventDate)
    (getYear fromDate) policy with hd1
  set d2 := buildOccurrenceDate (getMonth event.eventDate) (getDate event.eventDate)
    (getYear fromDate + 1) policy with hd2
  set ldt1 := TimezoneUtil.localDateTimeOf event.notificationTime d1 with hldt1
  set ldt2 := TimezoneUtil.localDateTimeOf event.notificationTime d2 with hldt2
  have hu1 : TimezoneUtil.toUtc event.notificationTime tz d1 =
      ldt1 - tz.offsetAtLocal ldt1 := rfl
  have hu2 : TimezoneUtil.toUtc event.notificationTime tz d2 =
      ldt2 - tz.offsetAtLocal ldt2 := rfl
  have hproj1 : localProjection tz (ldt1 - tz.offsetAtLocal ldt1) = ldt1 := by
    unfold coherentAt at hcoh1
    unfold localProjection
    omega
  have hproj2 : localProjection tz (ldt2 - tz.offsetAtLocal ldt2) = ldt2 := by
    unfold coherentAt at hcoh2
    unfold localProjection
    omega
  have hsecs1 : secsOfDay ldt1 = timeSecs event.notificationTime := by
    rw [hldt1]
    unfold TimezoneUtil.localDateTimeOf
    exact secsOfDay_epochOfCivil _ _ _ _ hT
  have hsecs2 : secsOfDay ldt2 = timeSecs event.notificationTime := by
    rw [hldt2]
    unfold TimezoneUtil.localDateTimeOf
    exact secsOfDay_epochOfCivil _ _ _ _ hT
  split_ifs with hlt
  · -- first candidate is strictly after fromDate
    refine ⟨_, rfl, hlt, ?_⟩
    rw [hu1, hproj1]
    exact hsecs1
  · -- first candidate not after fromDate: year + 1 candidate is returned
    refine ⟨_, rfl, ?_, ?_⟩
    · have hstart := lt_next_year_start fromDate
      rw [hu2]
      omega
    · rw [hu2, hproj2]
      exact hsecs2

/-- C1 witness instantiation: a June 15 event at 09:00 in Etc/UTC,
reference 2025-01-01T00:00:00Z. -/
theorem claim_C1_witness :
    ∃ u, nextOccurrence ⟨epochOfCivil 2000 6 15 0 0 0, ⟨9, 0, 0⟩⟩
        (epochOfCivil 2025 1 1 0 0 0) utcName sampleTzDb .USE_FEB_28 = Except.ok u ∧
      epochOfCivil 2025 1 1 0 0 0 < u ∧
      secsOfDay (localProjection etcUtc u) = timeSecs ⟨9, 0, 0⟩ :=
  claim_C1_amended ⟨epochOfCivil 2000 6 15 0 0 0, ⟨9, 0, 0⟩⟩
    (epochOfCivil 2025 1 1 0 0 0) utcName sampleTzDb etcUtc .USE_FEB_28
    rfl (by decide) rfl rfl (by decide)

/-- C1 counterexample: for the (real, resolvable) timezone
Pacific/Kiritimati (UTC+14), a January 1 event at local midnight and
reference instant 2025-12-31T23:00:00Z, `nextOccurrence` returns
2025-12-31T10:00:00Z, which is NOT strictly after the reference: the code
only ever tries two candidate years, and both candidates convert to UTC
instants before the reference. -/
theorem claim_C1_counterexample :
    nextOccurrence ⟨epochOfCivil 2000 1 1 0 0 0, ⟨0, 0, 0⟩⟩
        (epochOfCivil 2025 12 31 23 0 0) kiriName sampleTzDb .USE_FEB_28
      = Except.ok (epochOfCivil 2025 12 31 10 0 0) ∧
    ¬ (epochOfCivil 2025 12 31 23 0 0 < epochOfCivil 2025 12 31 10 0 0) ∧
    TimezoneUtil.isValidTimezone sampleTzDb kiriName = true ∧
    validTime ⟨0, 0, 0⟩ :=
  ⟨rfl, by decide, rfl, by decide⟩

/-- C5: event date 2000-02-29, notification time 09:00:00,
timezone America/New_York, reference 2025-01-01 → the next occurrence is
exactly 2025-02-28T14:00:00Z (EST, UTC-5), epoch second 1740751200. -/
theorem claim_C5 :
    nextOccurrence ⟨epochOfCivil 2000 2 29 0 0 0, ⟨9, 0, 0⟩⟩
        (epochOfCivil 2025 1 1 0 0 0) nyName sampleTzDb .USE_FEB_28
      = Except.ok (epochOfCivil 2025 2 28 14 0 0) ∧
    epochOfCivil 2025 2 28 14 0 0 = 1740751200 :=
  ⟨rfl, by decide⟩

/-- C6: a Feb-29 event resolves, under the default `USE_FEB_28` policy, to
Feb 28 of a non-leap target year and to Feb 29 of a leap target year, with
leap years given by the Gregorian rule. -/
theorem claim_C6 (year : Int) :
    buildOccurrenceDate 1 29 year .USE_FEB_28 =
      (if isLeapYear year then daysFromCivil year 2 29
       else daysFromCivil year 2 28) * 86400 ∧
    (isLeapYear year = true ↔ ((4 ∣ year ∧ ¬ (100 ∣ year)) ∨ 400 ∣ year)) := by
  have hleap : isLeapYear year = true ↔
      ((year % 4 = 0 ∧ year % 100 ≠ 0) ∨ year % 400 = 0) := by
    unfold isLeapYear
    simp [Bool.or_eq_true, Bool.and_eq_true, beq_iff_eq, bne_iff_ne]
  constructor
  · unfold buildOccurrenceDate
    by_cases h : ((year % 4 = 0 ∧ year % 100 ≠ 0) ∨ year % 400 = 0)
    · rw [if_pos (show (1 : Int) = 1 ∧ (29 : Int) = 29 from ⟨rfl, rfl⟩),
        if_neg (not_not_intro h), if_pos (hleap.mpr h)]
    · rw [if_pos (show (1 : Int) = 1 ∧ (29 : Int) = 29 from ⟨rfl, rfl⟩),
        if_pos h, if_neg (fun hc => h (hleap.mp hc))]
  · rw [hleap]
    omega

/-- C7: `nextOccurrence` fails (with the `InvalidTimezone` error, the only
error it can raise) iff the timezone identifier does not resolve in the
IANA database; for every resolvable timezone it returns a value, computed
as a pure function of its inputs. -/
theorem claim_C7 (event : RecurringEventInput) (fromDate : Int)
    (timezone : String) (db : TzDatabase) (policy : LeapYearPolicy) :
    ((∃ e, nextOccurrence event fromDate timezone db policy = Except.error e)
      ↔ db timezone = none) ∧
    ((∃ u, nextOccurrence event fromDate timezone db policy = Except.ok u)
      ↔ (db timezone).isSome = true) := by
  unfold nextOccurrence TimezoneUtil.isValidTimezone
  cases hdb : db timezone with
  | none =>
    rw [if_pos (by simp)]
    refine ⟨⟨fun _ => rfl, fun _ => ⟨.invalidTimezone, rfl⟩⟩, ?_, ?_⟩
    · rintro ⟨u, hu⟩
      exact Except.noConfusion hu
    · intro h
      simp at h
  | some tz =>
    rw [if_neg (by simp)]
    refine ⟨⟨?_, ?_⟩, ?_, ?_⟩
    · rintro ⟨e, he⟩
      dsimp only at he
      split_ifs at he
    · intro h
      exact absurd h (by simp)
    · intro _
      simp
    · intro _
      dsimp only
      split_ifs
      · exact ⟨_, rfl⟩
      · exact ⟨_, rfl⟩

/-! ## Claim C8: the idempotency key
(src/modules/jobs/interfaces/job-envelope.interface.ts)

JS template-literal stringification of the year (`${year}`) is embedded as
decimal printing over `Int`. -/

/-- Decimal digit character (`'0'` is code point 48). -/
def digitChar (d : Nat) : Char := Char.ofNat (48 + d)

/-- Decimal digit characters of a natural number, most significant first. -/
def natChars (n : Nat) : List Char :=
  if n < 10 then [digitChar n]
  else natChars (n / 10) ++ [digitChar (n % 10)]
decreasing_by exact Nat.div_lt_self (by omega) (by omega)

/-- Character list of the JS decimal rendering of an integer. -/
def intChars (i : Int) : List Char :=
  if i < 0 then Char.ofNat 45 :: natChars (-i).toNat else natChars i.toNat

/-- JS number-to-string for integral values (decimal, `-` sign). -/
def intString (i : Int) : String := String.mk (intChars i)

/-- Helper to generate idempotency key, format `event:{eventId}:{year}`. -/
def generateIdempotencyKey (eventId : String) (year : Int) : String :=
  "event:" ++ eventId ++ ":" ++ intString year

/-- Numeric value of a digit character. -/
def charVal (c : Char) : Nat := c.toNat - 48

/-- Decimal value of a digit character list. -/
def digitsVal (l : List Char) : Nat :=
  l.foldl (fun a c => 10 * a + charVal c) 0

theorem charVal_digitChar : ∀ d : Nat, d < 10 → charVal (digitChar d) = d := by
  decide

theorem digitsVal_natChars (n : Nat) : digitsVal (natChars n) = n := by
  induction n using Nat.strong_induction_on with
  | _ n ih =>
    rw [natChars]
    split_ifs with h
    · unfold digitsVal
      simp [List.foldl, charVal_digitChar n h]
    · unfold digitsVal at *
      rw [List.foldl_append]
      rw [ih (n / 10) (Nat.div_lt_self (by omega) (by omega))]
      simp [List.foldl, charVal_digitChar (n % 10) (Nat.mod_lt n (by omega))]
      omega

theorem natChars_inj {a b : Nat} (h : natChars a = natChars b) : a = b := by
  have ha := digitsVal_natChars a
  have hb := digitsVal_natChars b
  rw [h] at ha
  omega

theorem minus_not_mem_natChars : ∀ n : Nat, Char.ofNat 45 ∉ natChars n := by
  intro n
  induction n using Nat.strong_induction_on with
  | _ n ih =>
    rw [natChars]
    split_ifs with h
    · intro hmem
      rw [List.mem_singleton] at hmem
      have : ∀ d : Nat, d < 10 → digitChar d ≠ Char.ofNat 45 := by decide
      exact this n h hmem.symm
    · intro hmem
      rw [List.mem_append] at hmem
      rcases hmem with hmem | hmem
      · exact ih (n / 10) (Nat.div_lt_self (by omega) (by omega)) hmem
      · rw [List.mem_singleton] at hmem
        have : ∀ d : Nat, d < 10 → digitChar d ≠ Char.ofNat 45 := by decide
        exact this (n % 10) (Nat.mod_lt n (by omega)) hmem.symm

theorem intChars_inj {i j : Int} (h : intChars i = intChars j) : i = j := by
  unfold intChars at h
  split_ifs at h with hi hj hj
  · injection h with h1 h2
    have h3 := natChars_inj h2
    omega
  · exfalso
    apply minus_not_mem_natChars j.toNat
    rw [← h]
    exact List.mem_cons_self _ _
  · exfalso
    apply minus_not_mem_natChars i.toNat
    rw [h]
    exact List.mem_cons_self _ _
  · have h2 := natChars_inj h
    omega

/-- C8: `generateIdempotencyKey` returns exactly `event:{eventId}:{year}`
(hence is deterministic in its inputs), and for a fixed event id two
distinct years always produce distinct keys. -/
theorem claim_C8 (eventId : String) (y1 y2 : Int) (hne : y1 ≠ y2) :
    generateIdempotencyKey eventId y1 =
      "event:" ++ eventId ++ ":" ++ intString y1 ∧
    generateIdempotencyKey eventId y1 ≠ generateIdempotencyKey eventId y2 := by
  refine ⟨rfl, ?_⟩
  intro h
  unfold generateIdempotencyKey at h
  apply hne
  apply intChars_inj
  have hdata : ∀ s t : String, (s ++ t).data = s.data ++ t.data := fun s t => rfl
  have h2 := congrArg String.data h
  simp only [hdata, List.append_assoc] at h2
  exact List.append_cancel_left (List.append_cancel_left (List.append_cancel_left h2))

/-- C8 witness: the keys of years 2025 and 2026 for one event id. -/
theorem claim_C8_witness :
    generateIdempotencyKey ("evt-1") 2025 =
      "event:" ++ "evt-1" ++ ":" ++ intString 2025 ∧
    generateIdempotencyKey ("evt-1") 2025 ≠ generateIdempotencyKey ("evt-1") 2026 :=
  claim_C8 ("evt-1") 2025 2026 (by decide)

/-! ## Job types, registry, and worker
(src/modules/jobs, worker service) -/

/-- Job type enumeration; enum values equal their keys as strings. -/
inductive JobType where
  | BIRTHDAY_NOTIFICATION
  | ANNIVERSARY_NOTIFICATION
deriving DecidableEq, Repr

/-- String value of a `JobType` enum member. -/
def JobType.str : JobType → String
  | .BIRTHDAY_NOTIFICATION => "BIRTHDAY_NOTIFICATION"
  | .ANNIVERSARY_NOTIFICATION => "ANNIVERSARY_NOTIFICATION"

/-- `Object.values(JobType).includes(s)`, returning the member. -/
def jobTypeOfString (s : String) : Option JobType :=
  if s = "BIRTHDAY_NOTIFICATION" then some .BIRTHDAY_NOTIFICATION
  else if s = "ANNIVERSARY_NOTIFICATION" then some .ANNIVERSARY_NOTIFICATION
  else none

/-- A JSON value, as far as the worker inspects payloads (opaque). -/
inductive JsValue where
  | nullv
  | boolv (b : Bool)
  | numv (n : Int)
  | strv (s : String)
deriving DecidableEq, Repr

/-- ProcessorResult: the handler's outcome as data. -/
structure ProcessorResult where
  success : Bool
  error : Option String
  metadata : Option JsValue
deriving DecidableEq, Repr

/-- A job envelope as parsed from a message body (`JSON.parse` result,
trusted as `JobEnvelope` by the cast): every field may be absent. -/
structure RawEnvelope where
  type : Option String
  version : Option Int
  idempotencyKey : Option String
  payload : Option JsValue
deriving DecidableEq, Repr

/-- JS falsiness of a possibly-absent string (`!x`): absent or empty. -/
def jsFalsyStr : Option String → Bool
  | none => true
  | some s => s == ""

/-- JS falsiness of a possibly-absent number (`!x`): absent or zero
(NaN is not modelled). -/
def jsFalsyNum : Option Int → Bool
  | none => true
  | some n => n == 0

/-- `JobWorkerService.validateEnvelope`: returns the failure reason, or
`none` when the envelope is structurally valid. -/
def validateEnvelope (envelope : RawEnvelope) : Option String :=
  if jsFalsyStr envelope.type then some ("MissingType")
  else if jsFalsyNum envelope.version then some ("MissingVersion")
  else if jsFalsyStr envelope.idempotencyKey then some ("MissingIdempotencyKey")
  else if envelope.payload = none then some ("MissingPayload")
  else if (envelope.type.bind jobTypeOfString).isNone then some ("InvalidJobType")
  else none

/-- A registered processor: `process` may throw (`Except.error`) or return
a `ProcessorResult`. -/
structure JobProcessor where
  process : RawEnvelope → Except String ProcessorResult

/-- The registry's `processors` map (a `Map<JobType, JobProcessor>`). -/
def JobRegistryState (P : Type) := JobType → Option P

/-- A registry with no registrations. -/
def emptyRegistry (P : Type) : JobRegistryState P := fun _ => none

namespace JobRegistry

/-- `JobRegistry.register`: throws if the type is already registered (in
which case the map is untouched — the caller keeps its old state),
otherwise extends the map. -/
def register {P : Type} (reg : JobRegistryState P) (t : JobType) (p : P) :
    Except String (JobRegistryState P) :=
  if (reg t).isSome then .error ("already registered")
  else .ok (fun t' => if t' = t then some p else reg t')

/-- `JobRegistry.getProcessor`: `Map.get`. -/
def getProcessor {P : Type} (reg : JobRegistryState P) (t : JobType) : Option P :=
  reg t

/-- `JobRegistry.hasProcessor`: `Map.has`. -/
def hasProcessor {P : Type} (reg : JobRegistryState P) (t : JobType) : Bool :=
  (reg t).isSome

end JobRegistry

/-- C9: `register` throws when the type already has a processor (the map,
and hence every existing registration, is unchanged — the model returns no
new state on error); after a successful `register`, `getProcessor` returns
the processor and `hasProcessor` is true; a never-registered type looks up
to `absent`; and no successful `register` call removes or replaces an
existing registration. -/
theorem claim_C9 {P : Type} (reg : JobRegistryState P) (t t' : JobType) (p q : P) :
    (reg t = some p → JobRegistry.register reg t q = Except.error ("already registered")) ∧
    (reg t = none → ∃ reg', JobRegistry.register reg t p = Except.ok reg' ∧
      JobRegistry.getProcessor reg' t = some p ∧
      JobRegistry.hasProcessor reg' t = true) ∧
    JobRegistry.getProcessor (emptyRegistry P) t = none ∧
    (∀ reg', JobRegistry.register reg t' q = Except.ok reg' → reg t = some p →
      JobRegistry.getProcessor reg' t = some p) := by
  refine ⟨?_, ?_, rfl, ?_⟩
  · intro h
    unfold JobRegistry.register
    rw [h]
    rfl
  · intro h
    unfold JobRegistry.register
    rw [h]
    refine ⟨_, rfl, ?_, ?_⟩ <;> simp [JobRegistry.getProcessor, JobRegistry.hasProcessor]
  · intro reg' hreg hsome
    unfold JobRegistry.register at hreg
    split_ifs at hreg with hcase
    injection hreg with hreg'
    subst hreg'
    unfold JobRegistry.getProcessor
    by_cases hts : t = t'
    · subst hts
      rw [hsome] at hcase
      exact absurd rfl hcase
    · simp [hts, hsome]

/-- C9 witness: concrete registration sequence over `P := Nat`. -/
theorem claim_C9_witness :
    JobRegistry.register (fun _ => some 7) JobType.BIRTHDAY_NOTIFICATION (5 : Nat)
      = Except.error ("already registered") ∧
    JobRegistry.getProcessor (emptyRegistry Nat) JobType.BIRTHDAY_NOTIFICATION = none :=
  ⟨(claim_C9 (fun _ => some 7) JobType.BIRTHDAY_NOTIFICATION
      JobType.ANNIVERSARY_NOTIFICATION 7 5).1 rfl,
   (claim_C9 (emptyRegistry Nat) JobType.BIRTHDAY_NOTIFICATION
      JobType.ANNIVERSARY_NOTIFICATION 7 5).2.2.1⟩

/-- Outcome of `JobWorkerService.processMessage` for one received message:
whether the message was deleted from the queue, and why. -/
inductive MsgOutcome where
  | deletedValidationFailure (reason : String)
  | deletedUnregisteredType
  | deletedSuccess
  | keptProcessorFailure
  | keptUnexpectedError
deriving DecidableEq, Repr

/-- Whether the outcome deletes the message from the queue. -/
def MsgOutcome.deletes : MsgOutcome → Bool
  | .deletedValidationFailure _ => true
  | .deletedUnregisteredType => true
  | .deletedSuccess => true
  | .keptProcessorFailure => false
  | .keptUnexpectedError => false

/-- `JobWorkerService.processMessage`: parse (modelled by the
`Option RawEnvelope` body), validate, route, dispatch.  The fall-through
`InvalidJobType` branch is unreachable after validation but keeps the
function total. -/
def processMessage (body : Option RawEnvelope)
    (registry : JobRegistryState JobProcessor) : MsgOutcome :=
  match body with
  | none => .deletedValidationFailure ("InvalidJSON")
  | some envelope =>
    match validateEnvelope envelope with
    | some reason => .deletedValidationFailure reason
    | none =>
      match envelope.type.bind jobTypeOfString with
      | none => .deletedValidationFailure ("InvalidJobType")
      | some jt =>
        if ¬ JobRegistry.hasProcessor registry jt then .deletedUnregisteredType
        else
          match JobRegistry.getProcessor registry jt with
          | none => .deletedUnregisteredType
          | some processor =>
            match processor.process envelope with
            | .error _ => .keptUnexpectedError
            | .ok result =>
              if result.success then .deletedSuccess else .keptProcessorFailure

/-- A structurally valid envelope carries a recognised job type. -/
theorem validate_none_bind (envelope : RawEnvelope)
    (h : validateEnvelope envelope = none) :
    ∃ jt, envelope.type.bind jobTypeOfString = some jt := by
  unfold validateEnvelope at h
  split_ifs at h with h1 h2 h3 h4 h5
  cases hb : envelope.type.bind jobTypeOfString with
  | none => rw [hb] at h5; exact absurd rfl h5
  | some jt => exact ⟨jt, rfl⟩

/-- C3: the worker deletes a received message if and only if (a) the body
fails to parse or the envelope fails structural validation, (b) the
envelope's (recognised) type has no registered processor, or (c) the
registered processor returns `success = true`; a processor-reported
failure or a thrown processor exception leaves the message in the queue. -/
theorem claim_C3 (body : Option RawEnvelope)
    (registry : JobRegistryState JobProcessor) :
    (processMessage body registry).deletes = true ↔
      (body = none ∨
       (∃ envelope, body = some envelope ∧ validateEnvelope envelope ≠ none) ∨
       (∃ envelope jt, body = some envelope ∧
          envelope.type.bind jobTypeOfString = some jt ∧
          JobRegistry.hasProcessor registry jt = false) ∨
       (∃ envelope jt processor result, body = some envelope ∧
          envelope.type.bind jobTypeOfString = some jt ∧
          JobRegistry.getProcessor registry jt = some processor ∧
          processor.process envelope = Except.ok result ∧
          result.success = true)) := by
  cases body with
  | none =>
    simp only [processMessage, MsgOutcome.deletes]
    constructor
    · intro _
      exact Or.inl (by simp)
    · intro _
      trivial
  | some envelope =>
    cases hval : validateEnvelope envelope with
    | some reason =>
      simp only [processMessage, hval, MsgOutcome.deletes]
      constructor
      · intro _
        refine Or.inr (Or.inl ⟨envelope, rfl, ?_⟩)
        rw [hval]
        simp
      · intro _
        trivial
    | none =>
      obtain ⟨jt, hjt⟩ := validate_none_bind envelope hval
      cases hhas : JobRegistry.hasProcessor registry jt with
      | false =>
        simp only [processMessage, hval, hjt, hhas, Bool.false_eq_true,
          not_false_iff, if_true, MsgOutcome.deletes]
        constructor
        · intro _
          exact Or.inr (Or.inr (Or.inl ⟨envelope, jt, rfl, hjt, hhas⟩))
        · intro _
          trivial
      | true =>
        obtain ⟨processor, hproc⟩ : ∃ processor,
            JobRegistry.getProcessor registry jt = some processor := by
          unfold JobRegistry.hasProcessor at hhas
          unfold JobRegistry.getProcessor
          cases h : registry jt with
          | none => rw [h] at hhas; exact Bool.noConfusion hhas
          | some p => exact ⟨p, rfl⟩
        cases hrun : processor.process envelope with
        | error e =>
          simp only [processMessage, hval, hjt, hhas, not_true, if_false,
            Bool.true_eq_false, ite_false, hproc, hrun, MsgOutcome.deletes]
          constructor
          · intro h
            exact Bool.noConfusion h
          · rintro (h | ⟨e2, he, hv⟩ | ⟨e2, jt2, he, hbind, hh⟩ |
              ⟨e2, jt2, p2, r2, he, hbind, hp, hr, hs⟩)
            · exact Option.noConfusion h
            · injection he with he'
              subst he'
              exact absurd hval hv
            · injection he with he'
              subst he'
              rw [hjt] at hbind
              injection hbind with hbind'
              subst hbind'
              rw [hhas] at hh
              exact Bool.noConfusion hh
            · injection he with he'
              subst he'
              rw [hjt] at hbind
              injection hbind with hbind'
              subst hbind'
              rw [hproc] at hp
              injection hp with hp'
              subst hp'
              rw [hrun] at hr
              exact Except.noConfusion hr
        | ok result =>
          cases hsucc : result.success with
          | true =>
            simp only [processMessage, hval, hjt, hhas, not_true, if_false,
              Bool.true_eq_false, ite_false, hproc, hrun, hsucc, if_true,
              MsgOutcome.deletes]
            constructor
            · intro _
              exact Or.inr (Or.inr (Or.inr
                ⟨envelope, jt, processor, result, rfl, hjt, hproc, hrun, hsucc⟩))
            · intro _
              trivial
          | false =>
            simp only [processMessage, hval, hjt, hhas, not_true, if_false,
              Bool.true_eq_false, ite_false, hproc, hrun, hsucc,
              MsgOutcome.deletes]
            constructor
            · intro h
              exact Bool.noConfusion h
            · rintro (h | ⟨e2, he, hv⟩ | ⟨e2, jt2, he, hbind, hh⟩ |
                ⟨e2, jt2, p2, r2, he, hbind, hp, hr, hs⟩)
              · exact Option.noConfusion h
              · injection he with he'
                subst he'
                exact absurd hval hv
              · injection he with he'
                subst he'
                rw [hjt] at hbind
                injection hbind with hbind'
                subst hbind'
                rw [hhas] at hh
                exact Bool.noConfusion hh
              · injection he with he'
                subst he'
                rw [hjt] at hbind
                injection hbind with hbind'
                subst hbind'
                rw [hproc] at hp
                injection hp with hp'
                subst hp'
                rw [hrun] at hr
                injection hr with hr'
                subst hr'
                rw [hsucc] at hs
                exact Bool.noConfusion hs

/-- C10 (implicit): envelope validation uses JS truthiness for `type`,
`version` and `idempotencyKey`: a present `version` equal to `0` is
rejected as `MissingVersion` and a present empty-string `idempotencyKey`
as `MissingIdempotencyKey` (permanent validation failures, message
deleted), even though the fields are not absent; only `payload` is checked
strictly against `undefined`, so a present falsy payload (e.g. JSON
`null`) passes the payload check. -/
theorem claim_C10 (envelope : RawEnvelope) (t : String)
    (registry : JobRegistryState JobProcessor) :
    (envelope.type = some t → t ≠ "" → envelope.version = some 0 →
      validateEnvelope envelope = some ("MissingVersion") ∧
      processMessage (some envelope) registry =
        MsgOutcome.deletedValidationFailure ("MissingVersion") ∧
      (processMessage (some envelope) registry).deletes = true) ∧
    (envelope.type = some t → t ≠ "" → jsFalsyNum envelope.version = false →
      envelope.idempotencyKey = some ("") →
      validateEnvelope envelope = some ("MissingIdempotencyKey") ∧
      processMessage (some envelope) registry =
        MsgOutcome.deletedValidationFailure ("MissingIdempotencyKey") ∧
      (processMessage (some envelope) registry).deletes = true) ∧
    (jsFalsyStr envelope.type = false → jsFalsyNum envelope.version = false →
      jsFalsyStr envelope.idempotencyKey = false → envelope.payload = none →
      validateEnvelope envelope = some ("MissingPayload")) ∧
    (∀ v, envelope.payload = some v →
      validateEnvelope envelope ≠ some ("MissingPayload")) := by
  refine ⟨?_, ?_, ?_, ?_⟩
  · intro htype hne hver
    have hfs : jsFalsyStr envelope.type = false := by
      rw [htype]
      unfold jsFalsyStr
      simp [hne]
    have hfv : jsFalsyNum envelope.version = true := by
      rw [hver]
      rfl
    have hv : validateEnvelope envelope = some ("MissingVersion") := by
      unfold validateEnvelope
      rw [hfs, hfv]
      rfl
    refine ⟨hv, ?_, ?_⟩ <;> simp only [processMessage, hv, MsgOutcome.deletes]
  · intro htype hne hver hkey
    have hfs : jsFalsyStr envelope.type = false := by
      rw [htype]
      unfold jsFalsyStr
      simp [hne]
    have hfk : jsFalsyStr envelope.idempotencyKey = true := by
      rw [hkey]
      rfl
    have hv : validateEnvelope envelope = some ("MissingIdempotencyKey") := by
      unfold validateEnvelope
      rw [hfs, hver, hfk]
      rfl
    refine ⟨hv, ?_, ?_⟩ <;> simp only [processMessage, hv, MsgOutcome.deletes]
  · intro h1 h2 h3 h4
    unfold validateEnvelope
    rw [h1, h2, h3, h4]
    rfl
  · intro v hv
    unfold validateEnvelope
    split_ifs with h1 h2 h3 h4 h5 <;> simp_all

/-- C10 witness: concrete envelopes exercising each truthiness rejection
and the strict payload check. -/
theorem claim_C10_witness :
    validateEnvelope ⟨some ("BIRTHDAY_NOTIFICATION"), some 0, some ("k"), some .nullv⟩
      = some ("MissingVersion") ∧
    validateEnvelope ⟨some ("BIRTHDAY_NOTIFICATION"), some 1, some (""), some .nullv⟩
      = some ("MissingIdempotencyKey") ∧
    validateEnvelope ⟨some ("BIRTHDAY_NOTIFICATION"), some 1, some ("k"), none⟩
      = some ("MissingPayload") ∧
    validateEnvelope ⟨some ("BIRTHDAY_NOTIFICATION"), some 1, some ("k"), some .nullv⟩
      ≠ some ("MissingPayload") :=
  ⟨((claim_C10 ⟨some ("BIRTHDAY_NOTIFICATION"), some 0, some ("k"), some .nullv⟩
      "BIRTHDAY_NOTIFICATION" (emptyRegistry JobProcessor)).1
      rfl (by decide) rfl).1,
   ((claim_C10 ⟨some ("BIRTHDAY_NOTIFICATION"), some 1, some (""), some .nullv⟩
      "BIRTHDAY_NOTIFICATION" (emptyRegistry JobProcessor)).2.1
      rfl (by decide) (by decide) rfl).1,
   (claim_C10 ⟨some ("BIRTHDAY_NOTIFICATION"), some 1, some ("k"), none⟩
      "BIRTHDAY_NOTIFICATION" (emptyRegistry JobProcessor)).2.2.1
      (by decide) (by decide) (by decide) rfl,
   (claim_C10 ⟨some ("BIRTHDAY_NOTIFICATION"), some 1, some ("k"), some .nullv⟩
      "BIRTHDAY_NOTIFICATION" (emptyRegistry JobProcessor)).2.2.2
      JsValue.nullv rfl⟩

/-! ## Event scheduler (src/modules/events/event-scheduler.service.ts)

Durable state is passed explicitly: `notifications` is the
`scheduled_notifications` table (with its unique index on
`(event_id, scheduled_for)`), `queue` the SQS queue contents. -/

/-- Prisma `EventType` enum (`event_type` in the SQL schema). -/
inductive EventType where
  | BIRTHDAY
  | ANNIVERSARY
  | SUBSCRIPTION_RENEWAL
  | CUSTOM
deriving DecidableEq, Repr

/-- String value of an `EventType` member. -/
def EventType.str : EventType → String
  | .BIRTHDAY => "BIRTHDAY"
  | .ANNIVERSARY => "ANNIVERSARY"
  | .SUBSCRIPTION_RENEWAL => "SUBSCRIPTION_RENEWAL"
  | .CUSTOM => "CUSTOM"

/-- A `scheduled_notifications` row (scheduling-relevant columns). -/
structure ScheduledNotification where
  id : Nat
  eventId : String
  scheduledFor : Int
  status : String
  retryCount : Int
deriving DecidableEq, Repr

/-- `EventNotificationPayload` (the ISO `scheduledFor` string is modelled
by the instant it denotes). -/
structure EventNotificationPayload where
  eventId : String
  userId : String
  scheduledFor : Int
  eventType : String
  year : Int
deriving DecidableEq, Repr

/-- The typed `JobEnvelope<EventNotificationPayload>` the scheduler and
recovery publish. -/
structure JobEnvelope where
  type : JobType
  version : Int
  idempotencyKey : String
  payload : EventNotificationPayload
deriving DecidableEq, Repr

/-- Owning user (scheduling-relevant columns). -/
structure UserRec where
  id : String
  timezone : String
deriving DecidableEq, Repr

/-- A `RecurringEvent` row joined with its user. -/
structure RecurringEvent where
  id : String
  userId : String
  type : EventType
  eventDate : Int
  notificationTime : TimeOfDay
  enabled : Bool
  user : UserRec
deriving DecidableEq, Repr

/-- Durable store plus queue, threaded through scheduler and recovery. -/
structure SchedState where
  notifications : List ScheduledNotification
  queue : List JobEnvelope
deriving DecidableEq, Repr

/-- Prisma error codes raised by the modelled store. -/
inductive PrismaError where
  | P2002
deriving DecidableEq, Repr

/-- `prisma.scheduledNotification.create`: enforces the unique index
`scheduled_notifications_event_id_scheduled_for_key` by raising `P2002`
when a row with the same `(event_id, scheduled_for)` exists. -/
def prismaCreateScheduledNotification (rows : List ScheduledNotification)
    (eventId : String) (scheduledFor : Int) :
    Except PrismaError (ScheduledNotification × List ScheduledNotification) :=
  if rows.any (fun r => r.eventId == eventId && r.scheduledFor == scheduledFor) then
    .error .P2002
  else
    let row : ScheduledNotification := ⟨rows.length, eventId, scheduledFor, "PENDING", 0⟩
    .ok (row, rows ++ [row])

/-- `EventSchedulerService.createScheduledNotification`: create with the
`P2002` unique-constraint violation handled as "already exists"
(returns `null`, store unchanged). -/
def createScheduledNotification (rows : List ScheduledNotification)
    (eventId : String) (scheduledFor : Int) :
    Option ScheduledNotification × List ScheduledNotification :=
  match prismaCreateScheduledNotification rows eventId scheduledFor with
  | .ok (n, rows') => (some n, rows')
  | .error .P2002 => (none, rows)

/-- `getJobTypeForEvent`: fixed `EventType → JobType` mapping; unknown
kinds throw. -/
def getJobTypeForEvent (eventType : EventType) : Except String JobType :=
  match eventType with
  | .BIRTHDAY => .ok .BIRTHDAY_NOTIFICATION
  | .ANNIVERSARY => .ok .ANNIVERSARY_NOTIFICATION
  | _ => .error ("Unknown EventType")

/-- Body of the scheduler's per-event loop iteration (its `try` block with
the per-event `catch`: a thrown error leaves the batch running and the
event unscheduled).  Returns the updated state and the number of
occurrences enqueued (0 or 1). -/
def scheduleEventStep (tzdb : TzDatabase) (now : Int) (st : SchedState)
    (event : RecurringEvent) : SchedState × Nat :=
  match nextOccurrence ⟨event.eventDate, event.notificationTime⟩ now
      event.user.timezone tzdb .USE_FEB_28 with
  | .error _ => (st, 0)
  | .ok occurrence =>
    let year := getYear occurrence
    let idempotencyKey := generateIdempotencyKey event.id year
    match createScheduledNotification st.notifications event.id occurrence with
    | (none, rows) => ({ st with notifications := rows }, 0)
    | (some _, rows) =>
      match getJobTypeForEvent event.type with
      | .error _ => ({ st with notifications := rows }, 0)
      | .ok jobType =>
        let envelope : JobEnvelope := ⟨jobType, 1, idempotencyKey,
          ⟨event.id, event.userId, occurrence, event.type.str, year⟩⟩
        ({ st with notifications := rows, queue := st.queue ++ [envelope] }, 1)

/-- `scheduleUpcomingOccurrences`: when enabled, list enabled events and
schedule each, counting newly enqueued occurrences. -/
def scheduleUpcomingOccurrences (enabled : Bool) (tzdb : TzDatabase)
    (events : List RecurringEvent) (now : Int) (st : SchedState) :
    SchedState × Nat :=
  if ¬ enabled then (st, 0)
  else
    (events.filter (fun e => e.enabled)).foldl
      (fun acc event =>
        let r := scheduleEventStep tzdb now acc.1 event
        (r.1, acc.2 + r.2))
      (st, 0)

/-- Number of `scheduled_notifications` rows for one `(event, instant)`. -/
def rowCount (rows : List ScheduledNotification) (eventId : String)
    (scheduledFor : Int) : Nat :=
  (rows.filter (fun r => r.eventId == eventId && r.scheduledFor == scheduledFor)).length

/-- Number of queued envelopes carrying one idempotency key. -/
def envCount (q : List JobEnvelope) (key : String) : Nat :=
  (q.filter (fun e => e.idempotencyKey == key)).length

theorem rowCount_zero_any (rows : List ScheduledNotification) (eid : String)
    (sf : Int) :
    rowCount rows eid sf = 0 ↔
      rows.any (fun r => r.eventId == eid && r.scheduledFor == sf) = false := by
  unfold rowCount
  rw [List.length_eq_zero, List.filter_eq_nil_iff, List.any_eq_false]

theorem rowCount_append_one (rows : List ScheduledNotification)
    (row : ScheduledNotification) (eid : String) (sf : Int) :
    rowCount (rows ++ [row]) eid sf =
      rowCount rows eid sf +
        (if row.eventId == eid && row.scheduledFor == sf then 1 else 0) := by
  unfold rowCount
  rw [List.filter_append, List.length_append]
  congr 1
  split_ifs with h <;> simp [List.filter, h]

theorem envCount_append_one (q : List JobEnvelope) (e : JobEnvelope)
    (key : String) :
    envCount (q ++ [e]) key =
      envCount q key + (if e.idempotencyKey == key then 1 else 0) := by
  unfold envCount
  rw [List.filter_append, List.length_append]
  congr 1
  split_ifs with h <;> simp [List.filter, h]

/-- C2: running `scheduleUpcomingOccurrences` twice for the same enabled
event and the same computed occurrence creates exactly one
`ScheduledNotification` row and enqueues exactly one envelope with that
occurrence's idempotency key; the second run's insert raises the Prisma
`P2002` unique-constraint error, which is treated as "already scheduled"
(the run reports 0 and leaves both store and queue untouched, skipping the
enqueue). -/
theorem claim_C2 (tzdb : TzDatabase) (event : RecurringEvent) (now occ : Int)
    (st0 : SchedState) (jt : JobType)
    (hen : event.enabled = true)
    (hocc : nextOccurrence ⟨event.eventDate, event.notificationTime⟩ now
      event.user.timezone tzdb .USE_FEB_28 = Except.ok occ)
    (hjt : getJobTypeForEvent event.type = Except.ok jt)
    (hfresh : rowCount st0.notifications event.id occ = 0) :
    let r1 := scheduleUpcomingOccurrences true tzdb [event] now st0
    let r2 := scheduleUpcomingOccurrences true tzdb [event] now r1.1
    rowCount r2.1.notifications event.id occ = 1 ∧
    r1.2 = 1 ∧ r2.2 = 0 ∧
    prismaCreateScheduledNotification r1.1.notifications event.id occ
      = Except.error PrismaError.P2002 ∧
    r2.1 = r1.1 ∧
    envCount r2.1.queue (generateIdempotencyKey event.id (getYear occ)) =
      envCount st0.queue (generateIdempotencyKey event.id (getYear occ)) + 1 := by
  intro r1 r2
  have hany0 : st0.notifications.any
      (fun r => r.eventId == event.id && r.scheduledFor == occ) = false :=
    (rowCount_zero_any _ _ _).mp hfresh
  have hstep1 : scheduleEventStep tzdb now st0 event =
      ({ notifications := st0.notifications ++
          [⟨st0.notifications.length, event.id, occ, "PENDING", 0⟩],
         queue := st0.queue ++
          [⟨jt, 1, generateIdempotencyKey event.id (getYear occ),
            ⟨event.id, event.userId, occ, event.type.str, getYear occ⟩⟩] }, 1) := by
    unfold scheduleEventStep createScheduledNotification
      prismaCreateScheduledNotification
    rw [hocc]
    dsimp only
    rw [hany0]
    simp [hjt]
  have hrun1 : r1 =
      ({ notifications := st0.notifications ++
          [⟨st0.notifications.length, event.id, occ, "PENDING", 0⟩],
         queue := st0.queue ++
          [⟨jt, 1, generateIdempotencyKey event.id (getYear occ),
            ⟨event.id, event.userId, occ, event.type.str, getYear occ⟩⟩] }, 1) := by
    show scheduleUpcomingOccurrences true tzdb [event] now st0 = _
    unfold scheduleUpcomingOccurrences
    rw [if_neg (by simp)]
    simp only [List.filter, hen, List.foldl, hstep1]
  have hany1 : (r1.1.notifications).any
      (fun r => r.eventId == event.id && r.scheduledFor == occ) = true := by
    rw [hrun1]
    dsimp only
    rw [List.any_append]
    simp [List.any]
  have hprisma2 : prismaCreateScheduledNotification r1.1.notifications
      event.id occ = Except.error PrismaError.P2002 := by
    unfold prismaCreateScheduledNotification
    rw [hany1]
    rfl
  have hstep2 : scheduleEventStep tzdb now r1.1 event = (r1.1, 0) := by
    unfold scheduleEventStep createScheduledNotification
    rw [hocc]
    dsimp only
    rw [hprisma2]
  have hrun2 : r2 = (r1.1, 0) := by
    show scheduleUpcomingOccurrences true tzdb [event] now r1.1 = _
    unfold scheduleUpcomingOccurrences
    rw [if_neg (by simp)]
    simp only [List.filter, hen, List.foldl, hstep2]
  refine ⟨?_, ?_, ?_, hprisma2, ?_, ?_⟩
  · rw [hrun2]
    dsimp only
    rw [hrun1]
    dsimp only
    rw [rowCount_append_one]
    rw [hfresh]
    simp
  · rw [hrun1]
  · rw [hrun2]
  · rw [hrun2]
  · rw [hrun2]
    dsimp only
    rw [hrun1]
    dsimp only
    rw [envCount_append_one]
    simp

/-- C2 witness: a concrete enabled birthday event scheduled twice against
an empty store. -/
theorem claim_C2_witness :
    let ev : RecurringEvent := ⟨"ev1", "u1", .BIRTHDAY,
      epochOfCivil 2000 6 15 0 0 0, ⟨9, 0, 0⟩, true, ⟨"u1", utcName⟩⟩
    let now := epochOfCivil 2025 1 1 0 0 0
    let occ := epochOfCivil 2025 6 15 9 0 0
    let st0 : SchedState := ⟨[], []⟩
    let r1 := scheduleUpcomingOccurrences true sampleTzDb [ev] now st0
    let r2 := scheduleUpcomingOccurrences true sampleTzDb [ev] now r1.1
    rowCount r2.1.notifications ev.id occ = 1 ∧
    r1.2 = 1 ∧ r2.2 = 0 ∧
    prismaCreateScheduledNotification r1.1.notifications ev.id occ
      = Except.error PrismaError.P2002 ∧
    r2.1 = r1.1 ∧
    envCount r2.1.queue (generateIdempotencyKey ev.id (getYear occ)) =
      envCount st0.queue (generateIdempotencyKey ev.id (getYear occ)) + 1 :=
  claim_C2 sampleTzDb
    ⟨"ev1", "u1", .BIRTHDAY, epochOfCivil 2000 6 15 0 0 0, ⟨9, 0, 0⟩, true,
      ⟨"u1", utcName⟩⟩
    (epochOfCivil 2025 1 1 0 0 0) (epochOfCivil 2025 6 15 9 0 0) ⟨[], []⟩
    .BIRTHDAY_NOTIFICATION rfl (by rfl) rfl rfl

/-! ## Recovery scanner
(src/modules/events/recovery/event-recovery.service.ts) -/

/-- date-fns `differenceInHours` (default rounding: truncation toward
zero). -/
def differenceInHours (a b : Int) : Int := Int.tdiv (a - b) 3600

/-- The service's `hoursLate > this.gracePeriodHours` comparison, where
`gracePeriodHours = gracePeriodMinutes / 60` is real-number division;
stated over the integers by scaling both sides by 60. -/
def exceedsGracePeriod (hoursLate graceMinutes : Int) : Bool :=
  60 * hoursLate > graceMinutes

/-- Aggregate counters returned by `recoverMissedOccurrences`. -/
structure RecoveryResult where
  totalMissed : Nat
  recovered : Nat
  skipped : Nat
  alreadyScheduled : Nat
deriving DecidableEq, Repr

/-- `recoverOccurrence`: insert the row and enqueue the envelope;
`P2002` means a concurrent writer won (`false` = skipped); an unknown
event type throws after the insert, which the caller's catch absorbs
(the inserted row persists, nothing is enqueued, no counter moves). -/
def recoverOccurrence (st : SchedState) (event : RecurringEvent)
    (occurrence year : Int) (idempotencyKey : String) :
    Except String Bool × SchedState :=
  match prismaCreateScheduledNotification st.notifications event.id occurrence with
  | .error .P2002 => (.ok false, st)
  | .ok (_, rows) =>
    match getJobTypeForEvent event.type with
    | .error e => (.error e, { st with notifications := rows })
    | .ok jobType =>
      let envelope : JobEnvelope := ⟨jobType, 1, idempotencyKey,
        ⟨event.id, event.userId, occurrence, event.type.str, year⟩⟩
      (.ok true,
        { st with
            notifications := rows
            queue := st.queue ++ [envelope] })

/-- One iteration of the recovery inner year loop (its `try` block with
the per-year `catch`).  An occurrence that is not yet due, or whose age
exceeds the grace period, is skipped silently: no counter is changed. -/
def recoverYearStep (tzdb : TzDatabase) (graceMinutes now : Int)
    (event : RecurringEvent) (acc : SchedState × RecoveryResult)
    (year : Int) : SchedState × RecoveryResult :=
  let st := acc.1
  let res := acc.2
  let yearStart := epochOfCivil year 1 1 0 0 0
  match nextOccurrence ⟨event.eventDate, event.notificationTime⟩ yearStart
      event.user.timezone tzdb .USE_FEB_28 with
  | .error _ => (st, res)
  | .ok occurrence =>
    if occurrence ≥ now then (st, res)
    else
      let hoursLate := differenceInHours now occurrence
      if exceedsGracePeriod hoursLate graceMinutes then (st, res)
      else
        let idempotencyKey := generateIdempotencyKey event.id year
        if st.notifications.any
            (fun r => r.eventId == event.id && r.scheduledFor == occurrence) then
          (st, { res with alreadyScheduled := res.alreadyScheduled + 1 })
        else
          let res' := { res with totalMissed := res.totalMissed + 1 }
          match recoverOccurrence st event occurrence year idempotencyKey with
          | (.ok true, st') => (st', { res' with recovered := res'.recovered + 1 })
          | (.ok false, st') => (st', { res' with skipped := res'.skipped + 1 })
          | (.error _, st') => (st', res')

/-- `recoverMissedOccurrences`: for each enabled event, check the
previous, current and next calendar year for missed occurrences. -/
def recoverMissedOccurrences (tzdb : TzDatabase) (graceMinutes : Int)
    (events : List RecurringEvent) (now : Int) (st : SchedState) :
    SchedState × RecoveryResult :=
  (events.filter (fun e => e.enabled)).foldl
    (fun acc event =>
      let currentYear := getYear now
      ([currentYear - 1, currentYear, currentYear + 1]).foldl
        (recoverYearStep tzdb graceMinutes now event) acc)
    (st, ⟨0, 0, 0, 0⟩)

/-- C4 (amended): with a 120-hour grace period (7200 minutes), an enabled
event whose occurrence is 48 hours in the past is recovered — the row is
inserted and the envelope enqueued, and the aggregate reports one missed,
one recovered occurrence; an occurrence 300 hours in the past is not
recovered and is not counted in any returned counter (it is skipped
silently before the aggregate is touched); an occurrence already present
as a `ScheduledNotification` is counted as `alreadyScheduled` and is never
inserted or enqueued again. -/
theorem claim_C4_amended :
    -- scenario 1: 48 hours late, within the 120-hour grace period
    recoverMissedOccurrences sampleTzDb 7200
      [⟨"evA", "uA", .BIRTHDAY, epochOfCivil 2000 2 28 0 0 0, ⟨9, 0, 0⟩, true,
        ⟨"uA", nyName⟩⟩]
      (epochOfCivil 2025 3 2 14 0 0) ⟨[], []⟩
    = (⟨[⟨0, "evA", epochOfCivil 2025 2 28 14 0 0, "PENDING", 0⟩],
        [⟨.BIRTHDAY_NOTIFICATION, 1, generateIdempotencyKey ("evA") 2025,
          ⟨"evA", "uA", epochOfCivil 2025 2 28 14 0 0, "BIRTHDAY", 2025⟩⟩]⟩,
       ⟨1, 1, 0, 0⟩) ∧
    epochOfCivil 2025 3 2 14 0 0 - epochOfCivil 2025 2 28 14 0 0 = 48 * 3600 ∧
    -- scenario 2: 300 hours late, outside the grace period: silently skipped
    recoverMissedOccurrences sampleTzDb 7200
      [⟨"evB", "uB", .BIRTHDAY, epochOfCivil 2000 2 17 0 0 0, ⟨21, 0, 0⟩, true,
        ⟨"uB", nyName⟩⟩]
      (epochOfCivil 2025 3 2 14 0 0) ⟨[], []⟩
    = (⟨[], []⟩, ⟨0, 0, 0, 0⟩) ∧
    epochOfCivil 2025 3 2 14 0 0 - epochOfCivil 2025 2 18 2 0 0 = 300 * 3600 ∧
    -- scenario 3: occurrence already scheduled: counted, never re-inserted
    recoverMissedOccurrences sampleTzDb 7200
      [⟨"evA", "uA", .BIRTHDAY, epochOfCivil 2000 2 28 0 0 0, ⟨9, 0, 0⟩, true,
        ⟨"uA", nyName⟩⟩]
      (epochOfCivil 2025 3 2 14 0 0)
      ⟨[⟨0, "evA", epochOfCivil 2025 2 28 14 0 0, "PENDING", 0⟩], []⟩
    = (⟨[⟨0, "evA", epochOfCivil 2025 2 28 14 0 0, "PENDING", 0⟩], []⟩,
       ⟨0, 0, 0, 1⟩) :=
  ⟨rfl, by decide, rfl, by decide, rfl⟩

/-- C4 counterexample: an enabled event whose 2025 occurrence is exactly
300 hours in the past of the reference instant (outside the 120-hour
grace period) appears in NO counter of the returned aggregate — the
original claim says it is "counted in the returned aggregate", but the
out-of-grace branch `continue`s before touching any counter. -/
theorem claim_C4_counterexample :
    nextOccurrence ⟨epochOfCivil 2000 2 17 0 0 0, ⟨21, 0, 0⟩⟩
        (epochOfCivil 2025 1 1 0 0 0) nyName sampleTzDb .USE_FEB_28
      = Except.ok (epochOfCivil 2025 2 18 2 0 0) ∧
    epochOfCivil 2025 3 2 14 0 0 - epochOfCivil 2025 2 18 2 0 0 = 300 * 3600 ∧
    recoverMissedOccurrences sampleTzDb 7200
      [⟨"evB", "uB", .BIRTHDAY, epochOfCivil 2000 2 17 0 0 0, ⟨21, 0, 0⟩, true,
        ⟨"uB", nyName⟩⟩]
      (epochOfCivil 2025 3 2 14 0 0) ⟨[], []⟩
    = (⟨[], []⟩, ⟨0, 0, 0, 0⟩) :=
  ⟨rfl, by decide, rfl⟩
